import Mathlib

/-!
# packet_sniffer: channel rotation and promiscuous frame callback

A shallow embedding of `src/sniff/packet_sniffer.cpp`.

* The class-static `current_channel` (a `uint32_t`) and the function-local
  static `init_guard` of `rotate_channel` form the `State`.
* Calls into the SDK / Arduino core (`wifi_set_channel`, `Serial.printf`,
  `pinMode`, `digitalWrite`, `delay`) and every dereference of the frame
  pointer `buf` are recorded, in program order, as a list of `Event`s.
* The frame pointer is modelled as the memory it points into
  (`Nat → Byte`, indexed by offset from `buf`) together with the separate
  `len` argument, exactly as the callback receives them.
-/

set_option linter.unusedVariables false

namespace sniff

/-- An octet (`uint8_t`). -/
abbrev Byte := Fin 256

/-- Observable actions of the firmware, in program order. -/
inductive Event where
  /-- Dereference of the frame pointer: `buf[offset]`. -/
  | load (offset : Nat)
  /-- One `::Serial.printf` call, with the characters it writes. -/
  | print (text : List Char)
  /-- Call of `::wifi_set_channel(channel)`; the parameter is a `uint8`. -/
  | wifi_set_channel (channel : Nat)
  /-- Call of `::pinMode(pin, mode)`. -/
  | pinMode (pin mode : Nat)
  /-- Call of `::digitalWrite(pin, value)`. -/
  | digitalWrite (pin value : Nat)
  /-- Call of `::delay(ms)`. -/
  | delay (ms : Nat)
  deriving DecidableEq

/-- Static storage of `packet_sniffer`: the `uint32_t current_channel` and
whether the function-local static `init_guard` has been initialised. -/
structure State where
  current_channel : Nat
  init_guard : Bool
  deriving DecidableEq

/-- Static initialisation: `DEFINE_STATIC(packet_sniffer::current_channel) = 1;`
and `init_guard` not yet initialised. -/
def initial : State := ⟨1, false⟩

/-! ## `printf` conversions -/

/-- Field padding of a `printf` conversion: `fill` is written in front until
the field has `width` characters; a longer text is written unchanged. -/
def pad (fill : Char) (width : Nat) (text : List Char) : List Char :=
  List.replicate (width - text.length) fill ++ text

/-- Conversion `%02X` of an unsigned argument: upper-case hexadecimal,
zero-filled to two characters. -/
def fmt_02X (v : Nat) : List Char :=
  pad '0' 2 ((Nat.toDigits 16 v).map Char.toUpper)

/-- Conversion `%<width>d` of an `int` argument: decimal with a leading minus
sign for negative values, space-filled on the left to `width` characters. -/
def fmt_d (width : Nat) (v : Int) : List Char :=
  pad ' ' width (if v < 0 then '-' :: Nat.toDigits 10 v.natAbs else Nat.toDigits 10 v.toNat)

/-- Conversion `static_cast<int8_t>(b)`, then promoted to `int`. -/
def static_cast_int8 (b : Byte) : Int :=
  if b.val < 128 then (b.val : Int) else (b.val : Int) - 256

/-- A `uint32_t` passed where `%d` reads an `int`. -/
def as_int (v : Nat) : Int :=
  if v % 2 ^ 32 < 2 ^ 31 then ((v % 2 ^ 32 : Nat) : Int) else ((v % 2 ^ 32 : Nat) : Int) - 2 ^ 32

/-- Arduino pin mode constant `OUTPUT`. -/
def OUTPUT : Nat := 1

/-- The blue led on the esp8266: `auto constexpr led_pin = 2;`. -/
def led_pin : Nat := 2

/-! ## The two callbacks -/

/-- Timer callback `packet_sniffer::rotate_channel`.  `set_result` is the
`bool` returned by `::wifi_set_channel`, which the code does not inspect. -/
def rotate_channel (set_result : Bool) (st : State) : State × List Event :=
  let current_channel := ((st.current_channel + 5) % 2 ^ 32) % 15
  let radio := [Event.wifi_set_channel (current_channel % 256),
                Event.print ("chan ".toList ++ fmt_d 2 (as_int current_channel) ++ ['\n'])]
  let guard := if st.init_guard then [] else [Event.pinMode led_pin OUTPUT]
  let led := if current_channel = 1 then
      [Event.digitalWrite led_pin 0, Event.delay 1, Event.digitalWrite led_pin 1]
    else []
  (⟨current_channel, true⟩, radio ++ guard ++ led)

/-- Body of the `for (auto i = 0; i < 6; ++i)` loop, iterations `i`, `i+1`, ...
while `i < 6`; `fuel` bounds the number of iterations. -/
def address_loop (buf : Nat → Byte) : Nat → Nat → List Event
  | 0, _ => []
  | fuel + 1, i =>
    if i < 6 then
      Event.load (22 + i) :: Event.print (fmt_02X (buf (22 + i)).val) :: address_loop buf fuel (i + 1)
    else []

/-- Radio callback `packet_sniffer::promiscuous_callback(buf, len)`.  The
repeated reads of `buf[12]` in the condition are recorded as one load.  The
argument `len` is not used by the code. -/
def promiscuous_callback (st : State) (buf : Nat → Byte) (len : Nat) : State × List Event :=
  if buf 12 = 0x88 ∨ buf 12 = 0x40 ∨ buf 12 = 0x94 ∨
      buf 12 = 0xa4 ∨ buf 12 = 0xb4 ∨ buf 12 = 0x08 then
    (st, Event.load 12 :: (address_loop buf 6 0 ++
      [Event.load 0, Event.print (' ' :: fmt_d 3 (static_cast_int8 (buf 0)) ++ ['\n'])]))
  else
    (st, [Event.load 12])

/-! ## The running firmware -/

/-- What the environment delivers: a timer tick (with the result the radio
will return for the channel change) or a received frame. -/
inductive Input where
  | tick (set_result : Bool)
  | frame (buf : Nat → Byte) (len : Nat)

/-- Dispatch of one delivered event to its callback. -/
def step (st : State) : Input → State × List Event
  | Input.tick r => rotate_channel r st
  | Input.frame buf len => promiscuous_callback st buf len

/-- Run the firmware over a sequence of delivered events, collecting the trace. -/
def run (st : State) : List Input → State × List Event
  | [] => (st, [])
  | i :: rest =>
    let r := step st i
    let r' := run r.1 rest
    (r'.1, r.2 ++ r'.2)

/-- Number of timer ticks among the delivered events. -/
def ticks : List Input → Nat
  | [] => 0
  | Input.tick _ :: rest => ticks rest + 1
  | Input.frame _ _ :: rest => ticks rest

/-! ## Projections of a trace -/

/-- Everything written to the serial port, in order. -/
def serial : List Event → List Char
  | [] => []
  | Event.print t :: rest => t ++ serial rest
  | _ :: rest => serial rest

/-- Offsets of the frame pointer that were dereferenced, in order. -/
def loads : List Event → List Nat
  | [] => []
  | Event.load o :: rest => o :: loads rest
  | _ :: rest => loads rest

/-- Channels handed to the radio, in order. -/
def channels_set : List Event → List Nat
  | [] => []
  | Event.wifi_set_channel c :: rest => c :: channels_set rest
  | _ :: rest => channels_set rest

/-- Indicator activity: the `digitalWrite` and `delay` calls, in order. -/
def led_activity : List Event → List Event
  | [] => []
  | Event.digitalWrite p v :: rest => Event.digitalWrite p v :: led_activity rest
  | Event.delay ms :: rest => Event.delay ms :: led_activity rest
  | _ :: rest => led_activity rest

/-- Memory holding the given bytes at offsets `0, 1, ...` (zero elsewhere). -/
def memory (bytes : List Byte) : Nat → Byte :=
  fun i => bytes.getD i 0

/-! ## Vocabulary of the specification -/

/-- The frame type/subtype bytes of interest: QoS Data, Probe Request, Block
Ack Request, Null function, QoS Null function, Data. -/
def interest : List Byte := [0x88, 0x40, 0x94, 0xA4, 0xB4, 0x08]

/-- The sixteen upper-case hexadecimal digit characters, by value. -/
def hex_digits : List Char := "0123456789ABCDEF".toList

/-- The upper-case hexadecimal digit for a value below sixteen. -/
def hex_digit (d : Nat) : Char := hex_digits.getD d '0'

/-- A byte as two upper-case hexadecimal digits, high nibble first. -/
def hex_pair (b : Byte) : List Char := [hex_digit (b.val / 16), hex_digit (b.val % 16)]

/-- The value of a hexadecimal digit character, if it is one of `hex_digits`. -/
def hex_value (c : Char) : Option Nat :=
  if hex_digits.indexOf c < 16 then some (hex_digits.indexOf c) else none

/-- Read a text back as base-16 numbers, one per consecutive character pair. -/
def read_pairs : List Char → Option (List Nat)
  | [] => some []
  | [_] => none
  | hi :: lo :: rest =>
    match hex_value hi, hex_value lo, read_pairs rest with
    | some h, some l, some r => some ((16 * h + l) :: r)
    | _, _, _ => none

/-- The channel hopping sequence `1, 6, 11, 1, 6, 11, ...` by position. -/
def cycle (n : Nat) : Nat :=
  if n % 3 = 0 then 1 else if n % 3 = 1 then 6 else 11

/-- The indicator pulse: drive active (0 is on), delay, drive inactive. -/
def pulse : List Event :=
  [Event.digitalWrite led_pin 0, Event.delay 1, Event.digitalWrite led_pin 1]

/-- Number of `Serial.printf` calls in a trace. -/
def prints : List Event → Nat
  | [] => 0
  | Event.print _ :: rest => prints rest + 1
  | _ :: rest => prints rest

/-! ## Example inputs -/

/-- A 28-byte frame: signal byte `0xD6`, type byte `0x88`, address
`AA BB CC DD EE FF`. -/
def frame_qos : List Byte :=
  [0xD6, 0, 0, 0, 0, 0, 0, 0, 0, 0, 0, 0, 0x88, 0, 0, 0, 0, 0, 0, 0, 0, 0,
   0xAA, 0xBB, 0xCC, 0xDD, 0xEE, 0xFF]

/-- A 28-byte frame whose type byte `0x00` is not of interest. -/
def frame_other : List Byte :=
  [0xD6, 0, 0, 0, 0, 0, 0, 0, 0, 0, 0, 0, 0x00, 0, 0, 0, 0, 0, 0, 0, 0, 0,
   0xAA, 0xBB, 0xCC, 0xDD, 0xEE, 0xFF]

/-- A 28-byte probe request with address `00 1A 2B FF 00 01`. -/
def frame_probe : List Byte :=
  [0xC4, 0, 0, 0, 0, 0, 0, 0, 0, 0, 0, 0, 0x40, 0, 0, 0, 0, 0, 0, 0, 0, 0,
   0x00, 0x1A, 0x2B, 0xFF, 0x00, 0x01]

/-- A 28-byte data frame with the weakest signal byte, `0x80` (-128). -/
def frame_weak : List Byte :=
  [0x80, 0, 0, 0, 0, 0, 0, 0, 0, 0, 0, 0, 0x08, 0, 0, 0, 0, 0, 0, 0, 0, 0,
   0x10, 0x20, 0x30, 0x40, 0x50, 0x60]

/-- A 28-byte data frame with signal byte `0xB0` (-80). -/
def frame_data : List Byte :=
  [0xB0, 0, 0, 0, 0, 0, 0, 0, 0, 0, 0, 0, 0x08, 0, 0, 0, 0, 0, 0, 0, 0, 0,
   0x10, 0x20, 0x30, 0x40, 0x50, 0x60]

/-- A 13-byte delivery whose last byte, at offset 12, is `0x88`. -/
def frame_short : List Byte :=
  [0xD6, 0, 0, 0, 0, 0, 0, 0, 0, 0, 0, 0, 0x88]

/-- A 12-byte delivery (receive-control header only). -/
def frame_header_only : List Byte :=
  [0xD6, 0, 0, 0, 0, 0, 0, 0, 0, 0, 0, 0]

/-- A 28-byte QoS data frame with signal byte `0x9C` (-100) and address
`AA BB CC DD EE FF`. -/
def frame_faint : List Byte :=
  [0x9C, 0, 0, 0, 0, 0, 0, 0, 0, 0, 0, 0, 0x88, 0, 0, 0, 0, 0, 0, 0, 0, 0,
   0xAA, 0xBB, 0xCC, 0xDD, 0xEE, 0xFF]

/-! ## Facts about the conversions -/

set_option maxRecDepth 100000 in
theorem fmt_02X_byte : ∀ b : Byte, fmt_02X b.val = hex_pair b := by decide

set_option maxRecDepth 100000 in
theorem fmt_d_byte : ∀ b : Byte,
    fmt_d 3 (static_cast_int8 b) =
      List.leftpad 3 ' ' (toString (static_cast_int8 b)).toList := by decide

set_option maxRecDepth 100000 in
theorem fmt_d_byte_length : ∀ b : Byte,
    (fmt_d 3 (static_cast_int8 b)).length =
      if 128 ≤ b.val ∧ b.val ≤ 156 then 4 else 3 := by decide

set_option maxRecDepth 100000 in
theorem fmt_d_byte_no_newline : ∀ b : Byte,
    (fmt_d 3 (static_cast_int8 b)).count '\n' = 0 := by decide

set_option maxRecDepth 100000 in
theorem hex_pair_no_newline : ∀ b : Byte, (hex_pair b).count '\n' = 0 := by decide

set_option maxRecDepth 100000 in
theorem hex_pair_digits : ∀ b : Byte, ∀ c ∈ hex_pair b, c ∈ hex_digits := by decide

set_option maxRecDepth 100000 in
theorem read_pairs_hex_pair_head : ∀ b : Byte,
    hex_value (hex_digit (b.val / 16)) = some (b.val / 16) ∧
    hex_value (hex_digit (b.val % 16)) = some (b.val % 16) := by decide

theorem static_cast_int8_range (b : Byte) :
    -128 ≤ static_cast_int8 b ∧ static_cast_int8 b ≤ 127 ∧
      (256 : Int) ∣ (static_cast_int8 b - (b.val : Int)) := by
  have hb := b.isLt
  unfold static_cast_int8
  split <;> omega

/-- The condition of the callback is membership in `interest`. -/
theorem interest_iff (b : Byte) :
    (b = 0x88 ∨ b = 0x40 ∨ b = 0x94 ∨ b = 0xa4 ∨ b = 0xb4 ∨ b = 0x08) ↔ b ∈ interest := by
  simp [interest]

/-- Trace of the callback on a frame of interest. -/
theorem callback_trace_match (st : State) (buf : Nat → Byte) (len : Nat)
    (h : buf 12 ∈ interest) :
    (promiscuous_callback st buf len).2 =
      [Event.load 12,
       Event.load 22, Event.print (hex_pair (buf 22)),
       Event.load 23, Event.print (hex_pair (buf 23)),
       Event.load 24, Event.print (hex_pair (buf 24)),
       Event.load 25, Event.print (hex_pair (buf 25)),
       Event.load 26, Event.print (hex_pair (buf 26)),
       Event.load 27, Event.print (hex_pair (buf 27)),
       Event.load 0,
       Event.print (' ' :: fmt_d 3 (static_cast_int8 (buf 0)) ++ ['\n'])] := by
  have h' := (interest_iff (buf 12)).mpr h
  simp only [promiscuous_callback, if_pos h', address_loop, fmt_02X_byte]
  simp

/-- Trace of the callback on any other frame. -/
theorem callback_trace_other (st : State) (buf : Nat → Byte) (len : Nat)
    (h : buf 12 ∉ interest) :
    (promiscuous_callback st buf len).2 = [Event.load 12] := by
  have h' : ¬ (buf 12 = 0x88 ∨ buf 12 = 0x40 ∨ buf 12 = 0x94 ∨
      buf 12 = 0xa4 ∨ buf 12 = 0xb4 ∨ buf 12 = 0x08) :=
    fun hc => h ((interest_iff (buf 12)).mp hc)
  simp only [promiscuous_callback, if_neg h']

/-- Serial text of the callback on a frame of interest. -/
theorem callback_serial_match (st : State) (buf : Nat → Byte) (len : Nat)
    (h : buf 12 ∈ interest) :
    serial (promiscuous_callback st buf len).2 =
      hex_pair (buf 22) ++ (hex_pair (buf 23) ++ (hex_pair (buf 24) ++ (hex_pair (buf 25) ++
        (hex_pair (buf 26) ++ (hex_pair (buf 27) ++
          (' ' :: (fmt_d 3 (static_cast_int8 (buf 0)) ++ ['\n']))))))) := by
  rw [callback_trace_match st buf len h]
  simp [serial]

/-- Reading back a rendered byte followed by more text. -/
theorem read_pairs_hex_pair (b : Byte) (rest : List Char) :
    read_pairs (hex_pair b ++ rest) = (read_pairs rest).map (fun r => b.val :: r) := by
  obtain ⟨hhi, hlo⟩ := read_pairs_hex_pair_head b
  have hb : 16 * (b.val / 16) + b.val % 16 = b.val := Nat.div_add_mod b.val 16
  simp only [hex_pair, List.cons_append, List.nil_append, read_pairs, hhi, hlo]
  rcases hr : read_pairs rest with _ | r <;> simp [hr, hb]

/-- The first twelve characters written for a frame of interest. -/
theorem callback_address_text (st : State) (buf : Nat → Byte) (len : Nat)
    (h : buf 12 ∈ interest) :
    (serial (promiscuous_callback st buf len).2).take 12 =
      hex_pair (buf 22) ++ (hex_pair (buf 23) ++ (hex_pair (buf 24) ++ (hex_pair (buf 25) ++
        (hex_pair (buf 26) ++ hex_pair (buf 27))))) := by
  rw [callback_serial_match st buf len h]
  simp [hex_pair]

/-! ## The frame callback -/

/-- C1, as stated, fails: for the 28-byte frame with byte 12 = `0x88`, address
`AA BB CC DD EE FF` and byte 0 = `0x9C` (-100) the callback writes
`"AABBCCDDEEFF -100\n"`; what stands between the space and the newline is not
a 3-character field. -/
theorem promiscuous_callback_field_counterexample :
    frame_faint.length = 28 ∧ memory frame_faint 12 ∈ interest ∧
    serial (promiscuous_callback initial (memory frame_faint) 28).2 =
      "AABBCCDDEEFF -100\n".toList ∧
    ¬ ∃ field : List Char, field.length = 3 ∧
      serial (promiscuous_callback initial (memory frame_faint) 28).2 =
        "AABBCCDDEEFF".toList ++ [' '] ++ field ++ ['\n'] := by
  have hs : serial (promiscuous_callback initial (memory frame_faint) 28).2 =
      "AABBCCDDEEFF -100\n".toList := by decide
  refine ⟨by decide, by decide, hs, ?_⟩
  rintro ⟨field, hlen, heq⟩
  rw [hs] at heq
  have hl := congrArg List.length heq
  simp only [List.length_append, List.length_cons, List.length_nil, hlen] at hl
  revert hl
  decide

/-- C1, amended: for a buffer of length at least 28 whose byte at offset 12 is
of interest, the callback writes exactly one line and does nothing else: bytes
22..27 in order as two upper-case zero-padded hex digits each, one space, byte 0
read as a two's-complement signed 8-bit integer `v` in decimal, right-justified
in a field of minimum width 3, and a newline.  The field has 3 characters,
except for byte 0 in `0x80..0x9C` (`v` in -128..-100), which is written in full
in 4.  Every dereference stays below `len`. -/
theorem promiscuous_callback_emits_line (st : State) (buf : Nat → Byte) (len : Nat)
    (hlen : 28 ≤ len) (h12 : buf 12 ∈ interest) :
    ∃ v : Int, (-128 ≤ v ∧ v ≤ 127 ∧ (256 : Int) ∣ (v - ((buf 0).val : Int))) ∧
      serial (promiscuous_callback st buf len).2 =
        hex_pair (buf 22) ++ hex_pair (buf 23) ++ hex_pair (buf 24) ++ hex_pair (buf 25) ++
        hex_pair (buf 26) ++ hex_pair (buf 27) ++ [' '] ++
        List.leftpad 3 ' ' (toString v).toList ++ ['\n'] ∧
      (List.leftpad 3 ' ' (toString v).toList).length =
        (if 128 ≤ (buf 0).val ∧ (buf 0).val ≤ 156 then 4 else 3) ∧
      (serial (promiscuous_callback st buf len).2).count '\n' = 1 ∧
      (∀ e ∈ (promiscuous_callback st buf len).2,
        (∃ o, o < len ∧ e = Event.load o) ∨ ∃ t, e = Event.print t) := by
  refine ⟨static_cast_int8 (buf 0), static_cast_int8_range (buf 0), ?_, ?_, ?_, ?_⟩
  · rw [callback_serial_match st buf len h12, fmt_d_byte]
    simp
  · rw [← fmt_d_byte]
    exact fmt_d_byte_length (buf 0)
  · rw [callback_serial_match st buf len h12]
    simp only [List.count_append, List.count_cons, hex_pair_no_newline, fmt_d_byte_no_newline]
    decide
  · rw [callback_trace_match st buf len h12]
    intro e he
    simp only [List.mem_cons, List.mem_singleton, List.not_mem_nil, or_false] at he
    rcases he with h | h | h | h | h | h | h | h | h | h | h | h | h | h | h
    case inl => exact Or.inl ⟨12, by omega, h⟩
    all_goals first
      | exact Or.inr ⟨_, h⟩
      | exact Or.inl ⟨_, by omega, h⟩

/-- C1, amended, on the end-to-end scenario: length 28, byte 12 = `0x88`,
bytes 22..27 = `AA BB CC DD EE FF`, byte 0 = `0xD6` gives
`"AABBCCDDEEFF -42\n"`. -/
theorem promiscuous_callback_emits_line_witness :
    frame_qos.length = 28 ∧
    serial (promiscuous_callback initial (memory frame_qos) 28).2 =
      "AABBCCDDEEFF -42\n".toList ∧
    ∃ v : Int, (-128 ≤ v ∧ v ≤ 127 ∧ (256 : Int) ∣ (v - ((memory frame_qos 0).val : Int))) ∧
      serial (promiscuous_callback initial (memory frame_qos) 28).2 =
        hex_pair (memory frame_qos 22) ++ hex_pair (memory frame_qos 23) ++
        hex_pair (memory frame_qos 24) ++ hex_pair (memory frame_qos 25) ++
        hex_pair (memory frame_qos 26) ++ hex_pair (memory frame_qos 27) ++ [' '] ++
        List.leftpad 3 ' ' (toString v).toList ++ ['\n'] ∧
      (List.leftpad 3 ' ' (toString v).toList).length =
        (if 128 ≤ (memory frame_qos 0).val ∧ (memory frame_qos 0).val ≤ 156 then 4 else 3) ∧
      (serial (promiscuous_callback initial (memory frame_qos) 28).2).count '\n' = 1 ∧
      (∀ e ∈ (promiscuous_callback initial (memory frame_qos) 28).2,
        (∃ o, o < 28 ∧ e = Event.load o) ∨ ∃ t, e = Event.print t) :=
  ⟨by decide, by decide,
    promiscuous_callback_emits_line initial (memory frame_qos) 28 (by decide) (by decide)⟩

/-- C2: the callback writes something if and only if the byte at offset 12 is
one of the six bytes of interest; otherwise it makes no `printf` call at all.
A 28-byte buffer with byte 12 = `0x00` produces no output. -/
theorem promiscuous_callback_output_iff (st : State) (buf : Nat → Byte) (len : Nat) :
    (serial (promiscuous_callback st buf len).2 ≠ [] ↔ buf 12 ∈ interest) ∧
    (prints (promiscuous_callback st buf len).2 = 0 ↔ buf 12 ∉ interest) ∧
    (frame_other.length = 28 ∧
      serial (promiscuous_callback st (memory frame_other) 28).2 = [] ∧
      prints (promiscuous_callback st (memory frame_other) 28).2 = 0) := by
  have hother : (memory frame_other 12) ∉ interest := by decide
  refine ⟨?_, ?_, by decide, ?_, ?_⟩
  · by_cases h : buf 12 ∈ interest
    · simp [callback_serial_match st buf len h, h, hex_pair]
    · simp [callback_trace_other st buf len h, h, serial]
  · by_cases h : buf 12 ∈ interest
    · simp [callback_trace_match st buf len h, h, prints]
    · simp [callback_trace_other st buf len h, h, prints]
  · simp [callback_trace_other st _ 28 hother, serial]
  · simp [callback_trace_other st _ 28 hother, prints]

/-- C5: evaluation of the callback on deliveries shorter than 28 bytes.  The
offsets dereferenced never depend on `len`: always 12, and 22..27 and 0 as well
when byte 12 is of interest.  On a 12-byte delivery offset 12 is dereferenced,
which is not below the length.  On a 13-byte delivery whose byte 12 is `0x88`
offsets 22..27 are dereferenced and a line is written, although the delivery
ends at offset 12. -/
theorem promiscuous_callback_short_delivery :
    (∀ (st : State) (buf : Nat → Byte) (len : Nat),
      loads (promiscuous_callback st buf len).2 =
        if buf 12 ∈ interest then [12, 22, 23, 24, 25, 26, 27, 0] else [12]) ∧
    (frame_header_only.length = 12 ∧
      loads (promiscuous_callback initial (memory frame_header_only) 12).2 = [12]) ∧
    (frame_short.length = 13 ∧
      loads (promiscuous_callback initial (memory frame_short) 13).2 =
        [12, 22, 23, 24, 25, 26, 27, 0] ∧
      serial (promiscuous_callback initial (memory frame_short) 13).2 =
        "000000000000 -42\n".toList) := by
  refine ⟨?_, by decide, by decide⟩
  intro st buf len
  by_cases h : buf 12 ∈ interest
  · rw [callback_trace_match st buf len h, if_pos h]
    rfl
  · rw [callback_trace_other st buf len h, if_neg h]
    rfl

/-- C6, as stated, fails: a data frame whose byte 0 is `0x80` is written as
`"102030405060 -128\n"`, a signal field of 4 characters and 18 in total. -/
theorem frame_line_shape_counterexample :
    memory frame_weak 12 ∈ interest ∧
    serial (promiscuous_callback initial (memory frame_weak) 28).2 =
      "102030405060 -128\n".toList ∧
    (serial (promiscuous_callback initial (memory frame_weak) 28).2).length ≠ 17 := by
  decide

/-- C6, amended: for every frame of interest the line is 12 upper-case hex
characters, one space, a signal field and a newline; the signal field has 3
characters, except for byte 0 in `0x80..0x9C` (values -128..-100) where it has
4, so the line has 17 characters, or 18 for those values. -/
theorem frame_line_shape (st : State) (buf : Nat → Byte) (len : Nat)
    (h12 : buf 12 ∈ interest) :
    ∃ addr field : List Char,
      serial (promiscuous_callback st buf len).2 = addr ++ [' '] ++ field ++ ['\n'] ∧
      addr.length = 12 ∧ (∀ c ∈ addr, c ∈ hex_digits) ∧
      field.length = (if 128 ≤ (buf 0).val ∧ (buf 0).val ≤ 156 then 4 else 3) ∧
      (serial (promiscuous_callback st buf len).2).length =
        (if 128 ≤ (buf 0).val ∧ (buf 0).val ≤ 156 then 18 else 17) := by
  refine ⟨hex_pair (buf 22) ++ (hex_pair (buf 23) ++ (hex_pair (buf 24) ++
    (hex_pair (buf 25) ++ (hex_pair (buf 26) ++ hex_pair (buf 27))))),
    fmt_d 3 (static_cast_int8 (buf 0)), ?_, ?_, ?_, fmt_d_byte_length (buf 0), ?_⟩
  · rw [callback_serial_match st buf len h12]
    simp
  · simp [hex_pair]
  · intro c hc
    simp only [List.mem_append] at hc
    rcases hc with hc | hc | hc | hc | hc | hc <;> exact hex_pair_digits _ c hc
  · rw [callback_serial_match st buf len h12]
    simp only [List.length_append, List.length_cons, List.length_nil, hex_pair,
      fmt_d_byte_length]
    split <;> rfl

/-- C6, amended, at a concrete data frame with byte 0 = `0xB0` (-80). -/
theorem frame_line_shape_witness :
    serial (promiscuous_callback initial (memory frame_data) 28).2 =
      "102030405060 -80\n".toList ∧
    ∃ addr field : List Char,
      serial (promiscuous_callback initial (memory frame_data) 28).2 =
        addr ++ [' '] ++ field ++ ['\n'] ∧
      addr.length = 12 ∧ (∀ c ∈ addr, c ∈ hex_digits) ∧
      field.length =
        (if 128 ≤ (memory frame_data 0).val ∧ (memory frame_data 0).val ≤ 156 then 4 else 3) ∧
      (serial (promiscuous_callback initial (memory frame_data) 28).2).length =
        (if 128 ≤ (memory frame_data 0).val ∧ (memory frame_data 0).val ≤ 156
          then 18 else 17) :=
  ⟨by decide, frame_line_shape initial (memory frame_data) 28 (by decide)⟩

/-- C7: the address written for a frame of interest (the first twelve
characters of the line) is a faithful encoding of bytes 22..27: exactly 12
characters, all among `0-9A-F`, and reading consecutive pairs back in base 16
gives the six bytes in order; hence two frames with the same rendered address
agree on bytes 22..27. -/
theorem address_rendering_faithful (st : State) (buf : Nat → Byte) (len : Nat)
    (h12 : buf 12 ∈ interest) :
    ((serial (promiscuous_callback st buf len).2).take 12).length = 12 ∧
    (∀ c ∈ (serial (promiscuous_callback st buf len).2).take 12, c ∈ hex_digits) ∧
    read_pairs ((serial (promiscuous_callback st buf len).2).take 12) =
      some [(buf 22).val, (buf 23).val, (buf 24).val, (buf 25).val, (buf 26).val,
        (buf 27).val] ∧
    (∀ (st' : State) (buf' : Nat → Byte) (len' : Nat), buf' 12 ∈ interest →
      (serial (promiscuous_callback st' buf' len').2).take 12 =
        (serial (promiscuous_callback st buf len).2).take 12 →
      ∀ i, 22 ≤ i → i ≤ 27 → buf' i = buf i) := by
  have hread : ∀ (s : State) (b : Nat → Byte) (l : Nat), b 12 ∈ interest →
      read_pairs ((serial (promiscuous_callback s b l).2).take 12) =
        some [(b 22).val, (b 23).val, (b 24).val, (b 25).val, (b 26).val, (b 27).val] := by
    intro s b l hb
    rw [callback_address_text s b l hb]
    have h27 : hex_pair (b 27) = hex_pair (b 27) ++ [] := by simp
    rw [h27, read_pairs_hex_pair, read_pairs_hex_pair, read_pairs_hex_pair,
      read_pairs_hex_pair, read_pairs_hex_pair, read_pairs_hex_pair]
    simp [read_pairs]
  refine ⟨?_, ?_, hread st buf len h12, ?_⟩
  · rw [callback_address_text st buf len h12]
    simp [hex_pair]
  · rw [callback_address_text st buf len h12]
    intro c hc
    simp only [List.mem_append] at hc
    rcases hc with hc | hc | hc | hc | hc | hc <;> exact hex_pair_digits _ c hc
  · intro st' buf' len' h12' heq i hlo hhi
    have h1 := hread st' buf' len' h12'
    rw [heq, hread st buf len h12] at h1
    simp only [Option.some.injEq, List.cons.injEq, and_true] at h1
    obtain ⟨e22, e23, e24, e25, e26, e27⟩ := h1
    interval_cases i
    · exact Fin.ext e22.symm
    · exact Fin.ext e23.symm
    · exact Fin.ext e24.symm
    · exact Fin.ext e25.symm
    · exact Fin.ext e26.symm
    · exact Fin.ext e27.symm

/-- C7, the stated example: address bytes `00 1A 2B FF 00 01` render as
`"001A2BFF0001"`. -/
theorem address_rendering_faithful_witness :
    (serial (promiscuous_callback initial (memory frame_probe) 28).2).take 12 =
      "001A2BFF0001".toList ∧
    read_pairs ((serial (promiscuous_callback initial (memory frame_probe) 28).2).take 12) =
      some [0x00, 0x1A, 0x2B, 0xFF, 0x00, 0x01] := by
  refine ⟨by decide, ?_⟩
  exact (address_rendering_faithful initial (memory frame_probe) 28 (by decide)).2.2.1

/-- C10: the callback returns the static state it was entered with, its trace
does not depend on that state, and after any sequence of earlier ticks and
frames a delivered frame produces the trace it produces from the initial
state. -/
theorem promiscuous_callback_frame (st st' : State) (buf : Nat → Byte) (len : Nat)
    (earlier : List Input) :
    (promiscuous_callback st buf len).1 = st ∧
    (promiscuous_callback st buf len).2 = (promiscuous_callback st' buf len).2 ∧
    (step (run initial earlier).1 (Input.frame buf len)).1 = (run initial earlier).1 ∧
    (step (run initial earlier).1 (Input.frame buf len)).2 =
      (promiscuous_callback initial buf len).2 := by
  have h1 : ∀ s : State, (promiscuous_callback s buf len).1 = s := by
    intro s
    unfold promiscuous_callback
    split <;> rfl
  have h2 : ∀ s s' : State,
      (promiscuous_callback s buf len).2 = (promiscuous_callback s' buf len).2 := by
    intro s s'
    unfold promiscuous_callback
    split <;> rfl
  exact ⟨h1 st, h2 st st', h1 _, h2 _ _⟩

/-! ## Channel rotation -/

/-- The channel stored by one rotation. -/
theorem rotate_channel_state (r : Bool) (st : State) :
    (rotate_channel r st).1.current_channel = ((st.current_channel + 5) % 2 ^ 32) % 15 := rfl

/-- One tick moves the hopping sequence one position on. -/
theorem rotate_channel_cycle (r : Bool) (st : State) (m : Nat)
    (h : st.current_channel = cycle m) :
    (rotate_channel r st).1.current_channel = cycle (m + 1) := by
  rw [rotate_channel_state, h]
  unfold cycle
  split_ifs <;> omega

/-- The channel after a run that starts at position `m` of the sequence. -/
theorem run_cycle (ins : List Input) : ∀ (st : State) (m : Nat),
    st.current_channel = cycle m →
    (run st ins).1.current_channel = cycle (m + ticks ins) := by
  induction ins with
  | nil => intro st m h; simpa [run, ticks] using h
  | cons i rest ih =>
    intro st m h
    cases i with
    | tick r =>
      have h' := ih (rotate_channel r st).1 (m + 1) (rotate_channel_cycle r st m h)
      simp only [run, step, ticks]
      rw [h']
      congr 1
      omega
    | frame buf len =>
      have hst : (promiscuous_callback st buf len).1 = st := by
        unfold promiscuous_callback
        split <;> rfl
      simp only [run, step, ticks, hst]
      exact ih st m h

/-- C3: from the initial state (channel 1), after any run containing `n`
calls of `rotate_channel` (whatever the radio returns and whatever frames are
delivered in between) the channel is 1 when `n mod 3 = 0`, 6 when
`n mod 3 = 1` and 11 when `n mod 3 = 2`; so every reachable channel is one of
1, 6, 11 and never 0. -/
theorem channel_after_rotations (ins : List Input) :
    (run initial ins).1.current_channel =
      (if ticks ins % 3 = 0 then 1 else if ticks ins % 3 = 1 then 6 else 11) ∧
    (run initial ins).1.current_channel ∈ [1, 6, 11] ∧
    (run initial ins).1.current_channel ≠ 0 := by
  have h := run_cycle ins initial 0 (by decide)
  rw [Nat.zero_add] at h
  have hc : (run initial ins).1.current_channel =
      (if ticks ins % 3 = 0 then 1 else if ticks ins % 3 = 1 then 6 else 11) := h
  refine ⟨hc, ?_, ?_⟩
  · rw [hc]; split_ifs <;> simp
  · rw [hc]; split_ifs <;> simp

/-- C3 on the first seven rotations: the channel sequence is
`6, 11, 1, 6, 11, 1, 6`. -/
theorem channel_after_rotations_witness :
    (List.range 8).map (fun n =>
      (run initial (List.replicate n (Input.tick true))).1.current_channel) =
      [1, 6, 11, 1, 6, 11, 1, 6] := by
  decide

/-- The `%2d` conversion of a channel below 15 is its decimal text
right-justified in two characters, without a newline. -/
theorem fmt_d_channel : ∀ n : Fin 15,
    fmt_d 2 (as_int n.val) = List.leftpad 2 ' ' (toString n.val).toList ∧
    (fmt_d 2 (as_int n.val)).count '\n' = 0 := by decide

/-- The stored channel is below 15 after every rotation. -/
theorem rotate_channel_lt (r : Bool) (st : State) :
    (rotate_channel r st).1.current_channel < 15 := by
  rw [rotate_channel_state]
  exact Nat.mod_lt _ (by decide)

/-- C4, as stated, fails at the largest 32-bit channel value: the addition
wraps to 4 before the remainder is taken, while `(c + 5) mod 15` is 5. -/
theorem rotate_channel_wrap_counterexample :
    4294967295 < 2 ^ 32 ∧
    (rotate_channel true ⟨4294967295, true⟩).1.current_channel = 4 ∧
    (4294967295 + 5) % 15 = 5 := by
  decide

/-- C4, amended: for every 32-bit channel value `c` with `c + 5 < 2^32`,
`rotate_channel` leaves the state equal to `(c + 5) mod 15` and hands exactly
that value to `wifi_set_channel`; three rotations from 1 return to 1. -/
theorem rotate_channel_arithmetic (r : Bool) (st : State)
    (h : st.current_channel + 5 < 2 ^ 32) :
    (rotate_channel r st).1.current_channel = (st.current_channel + 5) % 15 ∧
    channels_set (rotate_channel r st).2 = [(st.current_channel + 5) % 15] ∧
    (∀ (r1 r2 r3 : Bool) (g : Bool),
      (rotate_channel r3 (rotate_channel r2
        (rotate_channel r1 ⟨1, g⟩).1).1).1.current_channel = 1) := by
  have hnew : ((st.current_channel + 5) % 2 ^ 32) % 15 = (st.current_channel + 5) % 15 := by
    rw [Nat.mod_eq_of_lt h]
  have hlt : (st.current_channel + 5) % 15 < 15 := Nat.mod_lt _ (by decide)
  have h256 : (st.current_channel + 5) % 15 % 256 = (st.current_channel + 5) % 15 :=
    Nat.mod_eq_of_lt (by omega)
  refine ⟨by rw [rotate_channel_state, hnew], ?_, ?_⟩
  · simp only [rotate_channel, hnew, h256]
    cases st.init_guard <;> split_ifs <;> simp [channels_set]
  · intro r1 r2 r3 g
    simp only [rotate_channel_state]
    decide

/-- C4, amended, at channel 11: the state becomes 1 and 1 is handed to the
radio. -/
theorem rotate_channel_arithmetic_witness :
    (rotate_channel true ⟨11, true⟩).1.current_channel = 1 ∧
    channels_set (rotate_channel true ⟨11, true⟩).2 = [1] := by
  have h := rotate_channel_arithmetic true ⟨11, true⟩ (by decide)
  exact ⟨h.1, h.2.1⟩

/-- C8: for every state, one call of `rotate_channel` makes exactly one
`printf` call, writing the single line `"chan "`, the new channel
right-justified in a field of width 2, newline; and the indicator activity is
the pulse (drive active, delay, drive inactive) when the new channel is 1 and
nothing otherwise. -/
theorem rotate_channel_log (r : Bool) (st : State) :
    serial (rotate_channel r st).2 =
      "chan ".toList ++
        List.leftpad 2 ' ' (toString (rotate_channel r st).1.current_channel).toList ++
        ['\n'] ∧
    prints (rotate_channel r st).2 = 1 ∧
    (serial (rotate_channel r st).2).count '\n' = 1 ∧
    led_activity (rotate_channel r st).2 =
      (if (rotate_channel r st).1.current_channel = 1 then pulse else []) := by
  have hlt := rotate_channel_lt r st
  rw [rotate_channel_state] at hlt
  obtain ⟨hfmt, hnl⟩ := fmt_d_channel ⟨_, hlt⟩
  simp only [] at hfmt hnl
  refine ⟨?_, ?_, ?_, ?_⟩
  · simp only [rotate_channel, ← hfmt]
    cases st.init_guard <;> split_ifs <;> simp [serial]
  · simp only [rotate_channel]
    cases st.init_guard <;> split_ifs <;> simp [prints]
  · have hs : serial (rotate_channel r st).2 =
        "chan ".toList ++ fmt_d 2 (as_int (((st.current_channel + 5) % 2 ^ 32) % 15)) ++
          ['\n'] := by
      simp only [rotate_channel]
      cases st.init_guard <;> split_ifs <;> simp [serial]
    rw [hs]
    simp only [List.count_append, hnl]
    decide
  · simp only [rotate_channel, pulse]
    cases st.init_guard <;> split_ifs <;> simp [led_activity]

/-- C8, the end-to-end scenario: three successive calls starting at channel 1
write `"chan  6\n"`, `"chan 11\n"`, `"chan  1\n"`, and only the third pulses
the indicator. -/
theorem rotate_channel_log_witness :
    (serial (rotate_channel true initial).2 = "chan  6\n".toList ∧
      led_activity (rotate_channel true initial).2 = []) ∧
    (serial (rotate_channel true (rotate_channel true initial).1).2 = "chan 11\n".toList ∧
      led_activity (rotate_channel true (rotate_channel true initial).1).2 = []) ∧
    (serial (rotate_channel true
        (rotate_channel true (rotate_channel true initial).1).1).2 = "chan  1\n".toList ∧
      led_activity (rotate_channel true
        (rotate_channel true (rotate_channel true initial).1).1).2 = pulse) := by
  decide

/-- C9, as stated, fails: when `wifi_set_channel` returns `false` on the first
rotation, the trace is the trace of a successful call and the only text written
is `"chan  6\n"`; nothing records the failure. -/
theorem set_channel_failure_counterexample :
    (rotate_channel false initial).2 = (rotate_channel true initial).2 ∧
    serial (rotate_channel false initial).2 = "chan  6\n".toList ∧
    prints (rotate_channel false initial).2 = 1 := by
  decide

/-- C9, amended: when `wifi_set_channel` reports failure, the result is
ignored: the trace is exactly that of a successful call (no line about the
failure), the channel still advances to `(c + 5) mod 15` (for `c + 5 < 2^32`),
and every following run proceeds exactly as after a successful call. -/
theorem set_channel_failure_ignored (st : State) (rest : List Input)
    (h : st.current_channel + 5 < 2 ^ 32) :
    (rotate_channel false st).2 = (rotate_channel true st).2 ∧
    (rotate_channel false st).1.current_channel = (st.current_channel + 5) % 15 ∧
    run st (Input.tick false :: rest) = run st (Input.tick true :: rest) := by
  refine ⟨rfl, ?_, rfl⟩
  rw [rotate_channel_state, Nat.mod_eq_of_lt h]

/-- C9, amended, from the initial state with two further ticks: the failed
first call still moves to channel 6 and the run writes the same three lines. -/
theorem set_channel_failure_ignored_witness :
    (rotate_channel false initial).1.current_channel = 6 ∧
    serial (run initial [Input.tick false, Input.tick true, Input.tick true]).2 =
      "chan  6\nchan 11\nchan  1\n".toList ∧
    run initial [Input.tick false, Input.tick true, Input.tick true] =
      run initial [Input.tick true, Input.tick true, Input.tick true] := by
  have h := set_channel_failure_ignored initial [Input.tick true, Input.tick true]
    (by decide)
  exact ⟨h.2.1, by decide, h.2.2⟩

end sniff
